import Mathlib

/-!
Shallow embedding of the tag-driven struct validation engine of `pkg/validator`
(file `fiber.go`), a Go package.  Go strings are modelled as lists of runes
(`GoStr := List Char`); `utf8.RuneCountInString` is then list length while the
Go byte length is the sum of the UTF-8 widths of the runes.  Machine integers
(`reflect.Value.Int`/`Uint`) are modelled as `Int`/`Nat` carrying the
mathematical value of the field.  Floating-point fields (`reflect.Float32/64`)
are outside the embedding.  The `regexp` patterns are transcribed into a small
regular-expression AST with a Brzozowski-derivative matcher; run-time
compilation of user-supplied patterns (`regexp.Compile` inside `validateRegex`)
is an external-library effect and is passed in as a parameter `rc`.
-/

namespace GoBoot

/-- A Go string, viewed as its sequence of runes. -/
abbrev GoStr := List Char

/-- Coerce a Lean string literal to a `GoStr`. -/
def gs (s : String) : GoStr := s.data

/-- The UTF-8 byte width of one rune. -/
def utf8Width (c : Char) : Nat :=
  if c.val < 0x80 then 1
  else if c.val < 0x800 then 2
  else if c.val < 0x10000 then 3
  else 4

/-- Go `len(s)` on a string: the byte length of its UTF-8 encoding. -/
def goByteLen (s : GoStr) : Nat := (s.map utf8Width).sum

/-- Go `unicode.IsSpace`: Unicode white space (the set used by `strings.TrimSpace`). -/
def goIsSpace (c : Char) : Bool :=
  c = ' ' || c = '\t' || c = '\n' || (0xB ≤ c.val && c.val ≤ 0xD) ||
  c.val = 0x85 || c.val = 0xA0 || c.val = 0x1680 ||
  (0x2000 ≤ c.val && c.val ≤ 0x200A) ||
  c.val = 0x2028 || c.val = 0x2029 || c.val = 0x202F || c.val = 0x205F ||
  c.val = 0x3000

/-- Go `strings.TrimSpace`: drop leading and trailing white space. -/
def trimSpace (s : GoStr) : GoStr :=
  ((s.dropWhile goIsSpace).reverse.dropWhile goIsSpace).reverse

/-- Go `strings.Split(s, sep)` for a one-rune separator `c`.
(On the empty string Go returns `[""]`, matching the `[[]]` base case.) -/
def splitOnChar (c : Char) : GoStr → List GoStr
  | [] => [[]]
  | x :: xs =>
    if x = c then [] :: splitOnChar c xs
    else
      match splitOnChar c xs with
      | [] => [[x]]
      | h :: t => (x :: h) :: t

/-- Go `strings.SplitN(s, "=", 2)`: the text before the first `=`, and
the text after it when one exists. -/
def splitFirstEq : GoStr → GoStr × Option GoStr
  | [] => ([], none)
  | x :: xs =>
    if x = '=' then ([], some xs)
    else
      let r := splitFirstEq xs
      (x :: r.1, r.2)

/-- Go `parseRule`: split a rule token on the first `=` into tag and parameter;
a token with no `=` has parameter `""`. -/
def parseRule (rule : GoStr) : GoStr × GoStr :=
  let r := splitFirstEq rule
  (r.1, r.2.getD [])

/-- Decimal digit value, `none` for a non-digit rune. -/
def digitVal (c : Char) : Option Nat :=
  if '0' ≤ c ∧ c ≤ '9' then some (c.toNat - '0'.toNat) else none

/-- Magnitude of a non-empty all-digit string, `none` otherwise. -/
def parseDigits : GoStr → Option Nat
  | [] => none
  | l =>
    l.foldl (fun acc c =>
      match acc, digitVal c with
      | some n, some d => some (n * 10 + d)
      | _, _ => none) (some 0)

/-- Signed decimal syntax (optional `+`/`-` sign followed by digits):
the sign and the magnitude, or `none` on a syntax error.
This is the syntax accepted by `strconv.ParseInt(s, 10, _)`. -/
def parseDecSyntax (s : GoStr) : Option (Bool × Nat) :=
  match s with
  | '-' :: rest => (parseDigits rest).map (fun n => (true, n))
  | '+' :: rest => (parseDigits rest).map (fun n => (false, n))
  | _ => (parseDigits s).map (fun n => (false, n))

/-- Go `strconv.Atoi`: signed decimal, `none` on a syntax error or when the
value does not fit in a 64-bit signed integer (Go's `int`). -/
def goAtoi (s : GoStr) : Option Int :=
  match parseDecSyntax s with
  | none => none
  | some (neg, m) =>
    let v : Int := if neg then -(m : Int) else (m : Int)
    if -(2 ^ 63) ≤ v ∧ v < 2 ^ 63 then some v else none

/-- Go `p, _ := strconv.ParseInt(param, 10, 64)`: the parse error is discarded,
so a syntax error yields `0` and an out-of-range value is clamped to the
extreme 64-bit value of the matching sign. -/
def goParseInt64Lenient (s : GoStr) : Int :=
  match parseDecSyntax s with
  | none => 0
  | some (neg, m) =>
    let v : Int := if neg then -(m : Int) else (m : Int)
    if v < -(2 ^ 63) then -(2 ^ 63)
    else if (2 ^ 63 : Int) - 1 < v then 2 ^ 63 - 1
    else v

/-- Go `p, _ := strconv.ParseUint(param, 10, 64)`: no sign is accepted; a syntax
error yields `0` and an out-of-range value is clamped to `2^64 - 1`. -/
def goParseUint64Lenient (s : GoStr) : Nat :=
  match parseDigits s with
  | none => 0
  | some m => if 2 ^ 64 - 1 < m then 2 ^ 64 - 1 else m

/-!
## Regular expressions

The pattern library (`emailRegex` … `idcardRegex` in `fiber.go`) is a set of
anchored `regexp` patterns; `MatchString` on an anchored `^…$` pattern is full
match, decided here by Brzozowski derivatives over rune-predicate classes.
-/

/-- Regular expressions over runes, with character classes as predicates. -/
inductive RE : Type where
  | emp : RE
  | eps : RE
  | cls (p : Char → Bool) : RE
  | cat (a b : RE) : RE
  | alt (a b : RE) : RE
  | star (a : RE) : RE

/-- Does the language of `r` contain the empty string? -/
def RE.nullable : RE → Bool
  | .emp => false
  | .eps => true
  | .cls _ => false
  | .cat a b => a.nullable && b.nullable
  | .alt a b => a.nullable || b.nullable
  | .star _ => true

/-- Brzozowski derivative of `r` by the rune `c`. -/
def RE.deriv (r : RE) (c : Char) : RE :=
  match r with
  | .emp => .emp
  | .eps => .emp
  | .cls p => if p c then .eps else .emp
  | .cat a b => .alt (.cat (a.deriv c) b) (if a.nullable then b.deriv c else .emp)
  | .alt a b => .alt (a.deriv c) (b.deriv c)
  | .star a => .cat (a.deriv c) (.star a)

/-- Full-string match of an (anchored) regular expression. -/
def reMatch (r : RE) (s : GoStr) : Bool := (s.foldl RE.deriv r).nullable

/-- A single literal rune. -/
def RE.chr (c : Char) : RE := .cls (· = c)

/-- A literal string. -/
def reStr (s : GoStr) : RE := s.foldr (fun c r => .cat (.chr c) r) .eps

/-- Regex `r?` -/
def RE.opt (r : RE) : RE := .alt .eps r

/-- Regex `r+` -/
def RE.plus1 (r : RE) : RE := .cat r (.star r)

/-- Regex `r{n}` -/
def RE.repExact (r : RE) : Nat → RE
  | 0 => .eps
  | n + 1 => .cat r (r.repExact n)

/-- Regex `r{0,n}` -/
def RE.upTo (r : RE) : Nat → RE
  | 0 => .eps
  | n + 1 => .opt (.cat r (r.upTo n))

/-- Regex `r{lo,hi}` -/
def RE.repRange (r : RE) (lo hi : Nat) : RE := .cat (r.repExact lo) (r.upTo (hi - lo))

/-- Regex `r{n,}` -/
def RE.atLeast (r : RE) (n : Nat) : RE := .cat (r.repExact n) (.star r)

/-- Regex `[0-9]` (`\d` in Go regexp). -/
def isDigitCh (c : Char) : Bool := '0' ≤ c && c ≤ '9'

/-- Regex `[a-zA-Z]`. -/
def isAlphaCh (c : Char) : Bool := ('a' ≤ c && c ≤ 'z') || ('A' ≤ c && c ≤ 'Z')

/-- Regex `\s` in Go regexp: `[\t\n\f\r ]`. -/
def isReSpace (c : Char) : Bool :=
  c = '\t' || c = '\n' || c = '\x0c' || c = '\r' || c = ' '

/-- Regex `emailRegex`: transcription of the Go pattern. -/
def emailRE : RE :=
  .cat (.plus1 (.cls fun c => isAlphaCh c || isDigitCh c ||
          c = '.' || c = '_' || c = '%' || c = '+' || c = '-'))
    (.cat (.chr '@')
      (.cat (.plus1 (.cls fun c => isAlphaCh c || isDigitCh c || c = '.' || c = '-'))
        (.cat (.chr '.') (RE.atLeast (.cls isAlphaCh) 2))))

/-- Regex `phoneRegex`: transcription of the Go pattern. -/
def phoneRE : RE :=
  .cat (.chr '1') (.cat (.cls fun c => '3' ≤ c && c ≤ '9') (RE.repExact (.cls isDigitCh) 9))

/-- Regex `urlRegex`: transcription of the Go pattern
(`.` in Go regexp is any rune except newline). -/
def urlRE : RE :=
  .cat (reStr (gs "http"))
    (.cat (RE.opt (.chr 's'))
      (.cat (reStr (gs "://"))
        (.cat (.cls fun c => !(isReSpace c || c = '/' || c = '$' || c = '.' ||
                c = '?' || c = '#'))
          (.cat (.cls fun c => c ≠ '\n')
            (.star (.cls fun c => !isReSpace c))))))

/-- Regex `ipRegex`: transcription of the Go pattern. -/
def ipRE : RE :=
  .cat (RE.repExact (.cat (RE.repRange (.cls isDigitCh) 1 3) (.chr '.')) 3)
    (RE.repRange (.cls isDigitCh) 1 3)

/-- Regex `alphaRegex`: transcription of the Go pattern. -/
def alphaRE : RE := .plus1 (.cls isAlphaCh)

/-- Regex `alphaNumRegex`: transcription of the Go pattern. -/
def alphaNumRE : RE := .plus1 (.cls fun c => isAlphaCh c || isDigitCh c)

/-- Regex `numericRegex`: transcription of the Go pattern. -/
def numericRE : RE := .plus1 (.cls isDigitCh)

/-- Regex `numberRegex`: transcription of the Go pattern. -/
def numberRE : RE :=
  .cat (RE.opt (.chr '-'))
    (.cat (.plus1 (.cls isDigitCh))
      (.cat (RE.opt (.chr '.')) (.star (.cls isDigitCh))))

/-- Regex `usernameRegex`: transcription of the Go pattern. -/
def usernameRE : RE := .plus1 (.cls fun c => isAlphaCh c || isDigitCh c || c = '_')

/-- Regex `idcardRegex`: transcription of the Go pattern. -/
def idcardRE : RE :=
  .cat (.cls fun c => '1' ≤ c && c ≤ '9')
    (.cat (RE.repExact (.cls isDigitCh) 5)
      (.cat (.alt (reStr (gs "18")) (.alt (reStr (gs "19")) (reStr (gs "20"))))
        (.cat (RE.repExact (.cls isDigitCh) 2)
          (.cat (.alt (.cat (.chr '0') (.cls fun c => '1' ≤ c && c ≤ '9'))
                  (.cat (.chr '1') (.cls fun c => '0' ≤ c && c ≤ '2')))
            (.cat (.alt (.cat (.chr '0') (.cls fun c => '1' ≤ c && c ≤ '9'))
                    (.alt (.cat (.cls fun c => c = '1' || c = '2') (.cls isDigitCh))
                      (.cat (.chr '3') (.cls fun c => c = '0' || c = '1'))))
              (.cat (RE.repExact (.cls isDigitCh) 3)
                (.cls fun c => isDigitCh c || c = 'X' || c = 'x')))))))

/-!
## The value model

`reflect.Value`s of the kinds the engine inspects.  Signed integer kinds are
collapsed into one constructor carrying `field.Int()`, the unsigned kinds into
one carrying `field.Uint()`; sequence kinds carry their `Len()`.
Floating-point kinds are outside the embedding.
-/

mutual
/-- A Go value as seen through `reflect`. -/
inductive GoValue : Type where
  | str (s : GoStr) : GoValue
  | int (n : Int) : GoValue
  | uint (n : Nat) : GoValue
  | boolean (b : Bool) : GoValue
  | slice (len : Nat) : GoValue
  | goMap (len : Nat) : GoValue
  | array (len : Nat) : GoValue
  | ptr (deref : Option GoValue) : GoValue
  | iface (deref : Option GoValue) : GoValue
  | strukt (fields : List GoField) : GoValue
  | other (isZero : Bool) : GoValue

/-- One struct field: name, struct tags (key/value pairs), whether it is
exported (`CanInterface`), whether it is embedded (`Anonymous`), and its value. -/
inductive GoField : Type where
  | mk (name : GoStr) (tags : List (GoStr × GoStr)) (exported : Bool)
       (anonymous : Bool) (value : GoValue) : GoField
end

def GoField.name : GoField → GoStr
  | .mk n _ _ _ _ => n

def GoField.tags : GoField → List (GoStr × GoStr)
  | .mk _ t _ _ _ => t

def GoField.exported : GoField → Bool
  | .mk _ _ e _ _ => e

def GoField.anonymous : GoField → Bool
  | .mk _ _ _ a _ => a

def GoField.value : GoField → GoValue
  | .mk _ _ _ _ v => v

/-- Go `reflect.StructTag.Get`: the value stored under `key`, `""` when absent. -/
def tagGet (tags : List (GoStr × GoStr)) (key : GoStr) : GoStr :=
  ((tags.find? (fun p => p.1 == key)).map (·.2)).getD []

mutual
/-- Go `reflect.Value.IsZero`.  The engine reaches it only through
`validateRequired`'s default branch (kinds outside string / sequence /
pointer / integer / bool, i.e. `strukt` and `other` here); on sequence
values, whose representation keeps only the length, zero-ness is identified
with emptiness. -/
def goValueIsZero : GoValue → Bool
  | .str s => s.isEmpty
  | .int n => n == 0
  | .uint n => n == 0
  | .boolean b => !b
  | .slice n => n == 0
  | .goMap n => n == 0
  | .array n => n == 0
  | .ptr d => d.isNone
  | .iface d => d.isNone
  | .strukt fs => goFieldsAllZero fs
  | .other z => z

/-- Zero-ness of a struct value: every field holds its zero value. -/
def goFieldsAllZero : List GoField → Bool
  | [] => true
  | .mk _ _ _ _ v :: rest => goValueIsZero v && goFieldsAllZero rest
end

/-!
## Validator data model
-/

/-- Go `ValidationError`. -/
structure ValidationError : Type where
  Field : GoStr
  Tag : GoStr
  Value : GoValue
  Message : GoStr

/-- Go `ValidationErrors`. -/
abbrev ValidationErrors := List ValidationError

/-- The result of `Validator.Validate`, a Go `error`:
`none` is a nil error (success). -/
inductive GoError : Type where
  | typeErr (msg : GoStr) : GoError
  | fieldErrs (errs : ValidationErrors) : GoError

/-- The run-time regexp compiler used by the `regex` rule
(`regexp.Compile` is an external library; a compiled pattern is its
`MatchString` function). -/
abbrev RegexCompiler := GoStr → Option (GoStr → Bool)

/-- Go `Validator`.  The Go `map`s (`messages`, `validators`) are modelled as
association lists in which the most recent insertion comes first. -/
structure Validator : Type where
  tagName : GoStr
  labelTag : GoStr
  messages : List (GoStr × GoStr)
  validators : List (GoStr × (GoValue → GoStr → Bool))

/-- Association-list lookup (Go map indexing with `ok`). -/
def lookupAssoc {β : Type} (m : List (GoStr × β)) (k : GoStr) : Option β :=
  (m.find? (fun p => p.1 == k)).map (·.2)

/-- Go `defaultMessages`. -/
def defaultMessages : List (GoStr × GoStr) :=
  [(gs "required", gs "{field}不能为空"),
   (gs "min", gs "{field}长度不能小于{param}"),
   (gs "max", gs "{field}长度不能超过{param}"),
   (gs "len", gs "{field}长度必须为{param}"),
   (gs "range", gs "{field}长度必须在{min}-{max}之间"),
   (gs "email", gs "{field}必须是有效的邮箱地址"),
   (gs "phone", gs "{field}必须是有效的手机号"),
   (gs "url", gs "{field}必须是有效的URL"),
   (gs "ip", gs "{field}必须是有效的IP地址"),
   (gs "alpha", gs "{field}只能包含字母"),
   (gs "alphanum", gs "{field}只能包含字母和数字"),
   (gs "numeric", gs "{field}只能包含数字"),
   (gs "number", gs "{field}必须是数字"),
   (gs "lowercase", gs "{field}只能包含小写字母"),
   (gs "uppercase", gs "{field}只能包含大写字母"),
   (gs "contains", gs "{field}必须包含{param}"),
   (gs "startswith", gs "{field}必须以{param}开头"),
   (gs "endswith", gs "{field}必须以{param}结尾"),
   (gs "regex", gs "{field}格式不正确"),
   (gs "eq", gs "{field}必须等于{param}"),
   (gs "ne", gs "{field}不能等于{param}"),
   (gs "gt", gs "{field}必须大于{param}"),
   (gs "gte", gs "{field}必须大于或等于{param}"),
   (gs "lt", gs "{field}必须小于{param}"),
   (gs "lte", gs "{field}必须小于或等于{param}"),
   (gs "oneof", gs "{field}必须是以下值之一: {param}"),
   (gs "username", gs "{field}只能包含字母、数字和下划线"),
   (gs "password", gs "{field}必须包含字母和数字，长度至少{param}位"),
   (gs "idcard", gs "{field}必须是有效的身份证号")]

/-- Go `New`. -/
def New : Validator :=
  { tagName := gs "validate"
    labelTag := gs "label"
    messages := defaultMessages
    validators := [] }

/-- Go `(*Validator).RegisterValidator`: map insertion, overwriting any earlier
entry of the same name (newest-first cons plus first-match lookup). -/
def Validator.RegisterValidator (v : Validator) (name : GoStr)
    (fn : GoValue → GoStr → Bool) : Validator :=
  { v with validators := (name, fn) :: v.validators }

/-- Go `(*Validator).SetMessage`. -/
def Validator.SetMessage (v : Validator) (tag message : GoStr) : Validator :=
  { v with messages := (tag, message) :: v.messages }

/-!
## Message rendering
-/

/-- Fuelled core of `strings.ReplaceAll` for a non-empty pattern. -/
def replaceAllAux (pat rep : GoStr) : Nat → GoStr → GoStr
  | 0, s => s
  | _ + 1, [] => []
  | fuel + 1, c :: rest =>
    if pat.isPrefixOf (c :: rest) then
      rep ++ replaceAllAux pat rep fuel ((c :: rest).drop pat.length)
    else c :: replaceAllAux pat rep fuel rest

/-- Go `strings.ReplaceAll`: leftmost non-overlapping replacement.  (With an
empty pattern Go inserts `rep` before every rune and at the end.) -/
def replaceAll (s pat rep : GoStr) : GoStr :=
  match pat with
  | [] => rep ++ s.flatMap (fun c => c :: rep)
  | _ => replaceAllAux pat rep s.length s

/-- Go `(*Validator).formatMessage`. -/
def Validator.formatMessage (v : Validator) (tag label param : GoStr) : GoStr :=
  let msg := (lookupAssoc v.messages tag).getD (gs "验证失败")
  let msg := replaceAll msg (gs "{field}") label
  let msg := replaceAll msg (gs "{param}") param
  if tag == gs "range" && param.contains '-' then
    match splitOnChar '-' param with
    | [a, b] => replaceAll (replaceAll msg (gs "{min}") a) (gs "{max}") b
    | _ => msg
  else msg

/-!
## Built-in rule predicates
-/

/-- Go `validateRequired`. -/
def validateRequired (field : GoValue) : Bool :=
  match field with
  | .str s => !(trimSpace s).isEmpty
  | .slice n => decide (0 < n)
  | .goMap n => decide (0 < n)
  | .array n => decide (0 < n)
  | .ptr d => d.isSome
  | .iface d => d.isSome
  | .int n => !(n == 0)
  | .uint n => !(n == 0)
  | .boolean _ => true
  | .strukt fs => !goFieldsAllZero fs
  | .other z => !z

/-- Go `uint64(min)` for a Go `int` value: two's-complement conversion. -/
def uint64Of (m : Int) : Nat := (m % (2 ^ 64 : Int)).toNat

/-- Go `validateMin`. -/
def validateMin (field : GoValue) (param : GoStr) : Bool :=
  match goAtoi param with
  | none => false
  | some m =>
    match field with
    | .str s => decide (m ≤ (s.length : Int))
    | .slice n => decide (m ≤ (n : Int))
    | .goMap n => decide (m ≤ (n : Int))
    | .array n => decide (m ≤ (n : Int))
    | .int n => decide (m ≤ n)
    | .uint n => decide (uint64Of m ≤ n)
    | _ => false

/-- Go `validateMax`. -/
def validateMax (field : GoValue) (param : GoStr) : Bool :=
  match goAtoi param with
  | none => false
  | some m =>
    match field with
    | .str s => decide ((s.length : Int) ≤ m)
    | .slice n => decide ((n : Int) ≤ m)
    | .goMap n => decide ((n : Int) ≤ m)
    | .array n => decide ((n : Int) ≤ m)
    | .int n => decide (n ≤ m)
    | .uint n => decide (n ≤ uint64Of m)
    | _ => false

/-- Go `validateLen`. -/
def validateLen (field : GoValue) (param : GoStr) : Bool :=
  match goAtoi param with
  | none => false
  | some m =>
    match field with
    | .str s => decide ((s.length : Int) = m)
    | .slice n => decide ((n : Int) = m)
    | .goMap n => decide ((n : Int) = m)
    | .array n => decide ((n : Int) = m)
    | _ => false

/-- Go `validateRange`. -/
def validateRange (field : GoValue) (param : GoStr) : Bool :=
  match splitOnChar '-' param with
  | [a, b] => validateMin field a && validateMax field b
  | _ => false

/-- Go `validateEmail`. -/
def validateEmail (field : GoValue) : Bool :=
  match field with
  | .str s => if s = [] then true else reMatch emailRE s
  | _ => false

/-- Go `validatePhone`. -/
def validatePhone (field : GoValue) : Bool :=
  match field with
  | .str s => if s = [] then true else reMatch phoneRE s
  | _ => false

/-- Go `validateURL`. -/
def validateURL (field : GoValue) : Bool :=
  match field with
  | .str s => if s = [] then true else reMatch urlRE s
  | _ => false

/-- Go `validateIP`: pattern match, then every dot-separated segment ≤ 255
(`num, _ := strconv.Atoi(part)` discards the error). -/
def validateIP (field : GoValue) : Bool :=
  match field with
  | .str s =>
    if s = [] then true
    else if !reMatch ipRE s then false
    else (splitOnChar '.' s).all (fun part => decide (goParseInt64Lenient part ≤ 255))
  | _ => false

/-- Go `validateAlpha`. -/
def validateAlpha (field : GoValue) : Bool :=
  match field with
  | .str s => if s = [] then true else reMatch alphaRE s
  | _ => false

/-- Go `validateAlphaNum`. -/
def validateAlphaNum (field : GoValue) : Bool :=
  match field with
  | .str s => if s = [] then true else reMatch alphaNumRE s
  | _ => false

/-- Go `validateNumeric`. -/
def validateNumeric (field : GoValue) : Bool :=
  match field with
  | .str s => if s = [] then true else reMatch numericRE s
  | _ => false

/-- Go `validateNumber`. -/
def validateNumber (field : GoValue) : Bool :=
  match field with
  | .str s => if s = [] then true else reMatch numberRE s
  | _ => false

/-- Go `strings.ToLower`, rune-wise (ASCII case mapping). -/
def goToLower (s : GoStr) : GoStr := s.map Char.toLower

/-- Go `strings.ToUpper`, rune-wise (ASCII case mapping). -/
def goToUpper (s : GoStr) : GoStr := s.map Char.toUpper

/-- Go `validateLowercase`. -/
def validateLowercase (field : GoValue) : Bool :=
  match field with
  | .str s => if s = [] then true else s == goToLower s
  | _ => false

/-- Go `validateUppercase`. -/
def validateUppercase (field : GoValue) : Bool :=
  match field with
  | .str s => if s = [] then true else s == goToUpper s
  | _ => false

/-- Go `strings.Contains(s, sub)`: `sub` occurs as a contiguous run of `s`. -/
def goContainsSub : GoStr → GoStr → Bool
  | [], sub => sub.isEmpty
  | c :: rest, sub => sub.isPrefixOf (c :: rest) || goContainsSub rest sub

/-- Go `validateContains` (note: no empty-string fast pass here). -/
def validateContains (field : GoValue) (param : GoStr) : Bool :=
  match field with
  | .str s => goContainsSub s param
  | _ => false

/-- Go `validateStartsWith`. -/
def validateStartsWith (field : GoValue) (param : GoStr) : Bool :=
  match field with
  | .str s => if s = [] then true else param.isPrefixOf s
  | _ => false

/-- Go `validateEndsWith`. -/
def validateEndsWith (field : GoValue) (param : GoStr) : Bool :=
  match field with
  | .str s => if s = [] then true else param.isSuffixOf s
  | _ => false

/-- Go `validateRegex`: compile the parameter at evaluation time; a compile
error fails the rule. -/
def validateRegex (rc : RegexCompiler) (field : GoValue) (param : GoStr) : Bool :=
  match field with
  | .str s =>
    if s = [] then true
    else
      match rc param with
      | none => false
      | some m => m s
  | _ => false

/-- Go `validateEq` (`p, _ := strconv.Parse…` discards the parse error). -/
def validateEq (field : GoValue) (param : GoStr) : Bool :=
  match field with
  | .str s => s == param
  | .int n => n == goParseInt64Lenient param
  | .uint n => n == goParseUint64Lenient param
  | _ => false

/-- Go `validateNe`. -/
def validateNe (field : GoValue) (param : GoStr) : Bool :=
  !validateEq field param

/-- Go `validateGt`. -/
def validateGt (field : GoValue) (param : GoStr) : Bool :=
  match field with
  | .int n => decide (goParseInt64Lenient param < n)
  | .uint n => decide (goParseUint64Lenient param < n)
  | _ => false

/-- Go `validateGte`. -/
def validateGte (field : GoValue) (param : GoStr) : Bool :=
  match field with
  | .int n => decide (goParseInt64Lenient param ≤ n)
  | .uint n => decide (goParseUint64Lenient param ≤ n)
  | _ => false

/-- Go `validateLt`. -/
def validateLt (field : GoValue) (param : GoStr) : Bool :=
  match field with
  | .int n => decide (n < goParseInt64Lenient param)
  | .uint n => decide (n < goParseUint64Lenient param)
  | _ => false

/-- Go `validateLte`. -/
def validateLte (field : GoValue) (param : GoStr) : Bool :=
  match field with
  | .int n => decide (n ≤ goParseInt64Lenient param)
  | .uint n => decide (n ≤ goParseUint64Lenient param)
  | _ => false

/-- Go `strconv.FormatInt(n, 10)`. -/
def formatInt (n : Int) : GoStr := gs (toString n)

/-- Go `strconv.FormatUint(n, 10)`. -/
def formatUint (n : Nat) : GoStr := gs (toString n)

/-- Go `validateOneOf`: non-string values are formatted to decimal and compared
against the space-separated list; a blank string passes. -/
def validateOneOf (field : GoValue) (param : GoStr) : Bool :=
  match field with
  | .str s =>
    if s = [] then true
    else (splitOnChar ' ' param).any (fun w => s == w)
  | .int n => (splitOnChar ' ' param).any (fun w => formatInt n == w)
  | .uint n => (splitOnChar ' ' param).any (fun w => formatUint n == w)
  | _ => false

/-- Go `validateUsername`. -/
def validateUsername (field : GoValue) : Bool :=
  match field with
  | .str s => if s = [] then true else reMatch usernameRE s
  | _ => false

/-- Go `validatePassword`: byte length ≥ `minLen` (default 6, parse error
discarded), at least one ASCII letter and one ASCII digit. -/
def validatePassword (field : GoValue) (param : GoStr) : Bool :=
  match field with
  | .str s =>
    if s = [] then true
    else
      let minLen : Int := if param = [] then 6 else goParseInt64Lenient param
      if (goByteLen s : Int) < minLen then false
      else s.any isAlphaCh && s.any isDigitCh
  | _ => false

/-- Go `validateIDCard`. -/
def validateIDCard (field : GoValue) : Bool :=
  match field with
  | .str s => if s = [] then true else reMatch idcardRE s
  | _ => false

/-!
## Rule dispatch
-/

/-- The rule names of the built-in `switch` of `validateField`, in source
order. -/
def builtinNames : List GoStr :=
  [gs "required", gs "min", gs "max", gs "len", gs "range", gs "email",
   gs "phone", gs "url", gs "ip", gs "alpha", gs "alphanum", gs "numeric",
   gs "number", gs "lowercase", gs "uppercase", gs "contains",
   gs "startswith", gs "endswith", gs "regex", gs "eq", gs "ne", gs "gt",
   gs "gte", gs "lt", gs "lte", gs "oneof", gs "username", gs "password",
   gs "idcard"]

/-- The built-in `switch` of `validateField`: dispatch on the rule name,
`true` (pass) for an unknown rule. -/
def builtinEval (rc : RegexCompiler) (field : GoValue) (tag param : GoStr) : Bool :=
  if tag = gs "required" then validateRequired field
  else if tag = gs "min" then validateMin field param
  else if tag = gs "max" then validateMax field param
  else if tag = gs "len" then validateLen field param
  else if tag = gs "range" then validateRange field param
  else if tag = gs "email" then validateEmail field
  else if tag = gs "phone" then validatePhone field
  else if tag = gs "url" then validateURL field
  else if tag = gs "ip" then validateIP field
  else if tag = gs "alpha" then validateAlpha field
  else if tag = gs "alphanum" then validateAlphaNum field
  else if tag = gs "numeric" then validateNumeric field
  else if tag = gs "number" then validateNumber field
  else if tag = gs "lowercase" then validateLowercase field
  else if tag = gs "uppercase" then validateUppercase field
  else if tag = gs "contains" then validateContains field param
  else if tag = gs "startswith" then validateStartsWith field param
  else if tag = gs "endswith" then validateEndsWith field param
  else if tag = gs "regex" then validateRegex rc field param
  else if tag = gs "eq" then validateEq field param
  else if tag = gs "ne" then validateNe field param
  else if tag = gs "gt" then validateGt field param
  else if tag = gs "gte" then validateGte field param
  else if tag = gs "lt" then validateLt field param
  else if tag = gs "lte" then validateLte field param
  else if tag = gs "oneof" then validateOneOf field param
  else if tag = gs "username" then validateUsername field
  else if tag = gs "password" then validatePassword field param
  else if tag = gs "idcard" then validateIDCard field
  else true

/-- Go `(*Validator).validateField`: a custom-registered validator of that name
wins; otherwise the built-in switch. -/
def Validator.validateField (v : Validator) (rc : RegexCompiler)
    (field : GoValue) (tag param : GoStr) : Bool :=
  match lookupAssoc v.validators tag with
  | some fn => fn field param
  | none => builtinEval rc field tag param

/-!
## Struct walker
-/

/-- Label resolution: `label` tag, else the `json` tag up to its first `,`
(when present and not `"-"`), else the declared field name. -/
def Validator.resolveLabel (v : Validator) (name : GoStr)
    (tags : List (GoStr × GoStr)) : GoStr :=
  let label := tagGet tags v.labelTag
  if label ≠ [] then label
  else
    let jsonTag := tagGet tags (gs "json")
    if jsonTag ≠ [] ∧ jsonTag ≠ gs "-" then ((splitOnChar ',' jsonTag).headD [])
    else name

/-- The inner rule loop of `validateStruct` for one field: trim each token,
skip empty tokens, and on the first failing rule append one error and break. -/
def Validator.ruleLoop (v : Validator) (rc : RegexCompiler)
    (name label : GoStr) (value : GoValue) : List GoStr → List ValidationError
  | [] => []
  | rule :: rest =>
    let r := trimSpace rule
    if r = [] then v.ruleLoop rc name label value rest
    else
      let tp := parseRule r
      if v.validateField rc value tp.1 tp.2 then v.ruleLoop rc name label value rest
      else [{ Field := name, Tag := tp.1, Value := value
              Message := v.formatMessage tp.1 label tp.2 }]

/-- The per-field tag handling of `validateStruct`: read the `validate` tag,
fast-skip `""` and `"-"`, otherwise split on `,` and run the rule loop. -/
def Validator.processTagged (v : Validator) (rc : RegexCompiler) (name : GoStr)
    (tags : List (GoStr × GoStr)) (value : GoValue) : List ValidationError :=
  let tagValue := tagGet tags v.tagName
  if tagValue = [] ∨ tagValue = gs "-" then []
  else v.ruleLoop rc name (v.resolveLabel name tags) value (splitOnChar ',' tagValue)

mutual
/-- Go `(*Validator).validateStruct`: walk the fields in declaration order,
concatenating each field's contribution. -/
def Validator.validateStructFields (v : Validator) (rc : RegexCompiler) :
    List GoField → List ValidationError
  | [] => []
  | f :: rest => v.validateFieldEntry rc f ++ v.validateStructFields rc rest

/-- One iteration of the field loop of `validateStruct`: skip unexported
fields, recurse into embedded (anonymous) struct fields, otherwise process
the field's rule annotation. -/
def Validator.validateFieldEntry (v : Validator) (rc : RegexCompiler) :
    GoField → List ValidationError
  | .mk _ _ exported true (.strukt fs) =>
    if exported then v.validateStructFields rc fs else []
  | .mk name tags exported _ value =>
    if exported then v.processTagged rc name tags value else []
end

/-- Representative `reflect.Kind` name for the "expected struct" error text
(the five signed and five unsigned integer kinds are collapsed in the
embedding, so one representative name stands for each family). -/
def GoValue.kindName : GoValue → GoStr
  | .str _ => gs "string"
  | .int _ => gs "int"
  | .uint _ => gs "uint"
  | .boolean _ => gs "bool"
  | .slice _ => gs "slice"
  | .goMap _ => gs "map"
  | .array _ => gs "array"
  | .ptr _ => gs "ptr"
  | .iface _ => gs "interface"
  | .strukt _ => gs "struct"
  | .other _ => gs "invalid"

/-- Go `(*Validator).Validate`: dereference a top-level pointer, reject
non-struct input, and return the collected errors (`none` = nil error). -/
def Validator.Validate (v : Validator) (rc : RegexCompiler) (s : GoValue) :
    Option GoError :=
  match (match s with | .ptr d => d | x => some x) with
  | none => some (.typeErr (gs "validator: expected struct, got invalid"))
  | some val =>
    match val with
    | .strukt fs =>
      let errs := v.validateStructFields rc fs
      if errs.length > 0 then some (.fieldErrs errs) else none
    | nonStruct =>
      some (.typeErr (gs "validator: expected struct, got " ++ nonStruct.kindName))

/-- Package-level `Validate` against the default validator (fresh here: the
embedding threads the registry state explicitly instead of a process global). -/
def Validate (rc : RegexCompiler) (s : GoValue) : Option GoError :=
  New.Validate rc s

/-- Go `validateSingleValue`: builds a throwaway validator and temp record,
discards both, and unconditionally reports success. -/
def validateSingleValue (value : GoValue) (rules : GoStr) : Option GoError :=
  let _v := New
  let _temp := value
  let _rules := rules
  none

/-- Go `ValidateVar`. -/
def ValidateVar (value : GoValue) (rules : GoStr) : Option GoError :=
  validateSingleValue value rules

/-!
## Spec-side notions used in theorem statements
-/

/-- The effective rule tokens of an annotation, as the spec describes them:
each token trimmed, empty tokens skipped. -/
def cleanedRules (rules : List GoStr) : List GoStr :=
  (rules.map trimSpace).filter (fun r => !r.isEmpty)

/-- The first rule (in annotation order) whose predicate fails, as a
(tag, parameter) pair. -/
def Validator.firstFailing (v : Validator) (rc : RegexCompiler) (value : GoValue)
    (rules : List GoStr) : Option (GoStr × GoStr) :=
  ((cleanedRules rules).map parseRule).find?
    (fun tp => !v.validateField rc value tp.1 tp.2)

/-- Is the value of string kind? -/
def GoValue.isString : GoValue → Bool
  | .str _ => true
  | _ => false

/-!
## Helper lemmas
-/

lemma dropWhile_of_all {p : Char → Bool} {s : GoStr} (h : s.all p = true) :
    s.dropWhile p = [] := by
  induction s with
  | nil => rfl
  | cons c cs ih =>
    simp only [List.all_cons, Bool.and_eq_true] at h
    simp [List.dropWhile, h.1, ih h.2]

lemma trimSpace_of_all_space {s : GoStr} (h : s.all goIsSpace = true) :
    trimSpace s = [] := by
  simp [trimSpace, dropWhile_of_all h]

lemma splitOnChar_not_mem {c : Char} {s : GoStr} (h : c ∉ s) :
    splitOnChar c s = [s] := by
  induction s with
  | nil => rfl
  | cons x xs ih =>
    rw [List.mem_cons, not_or] at h
    simp only [splitOnChar, if_neg (fun hh : x = c => h.1 hh.symm), ih h.2]

lemma splitOnChar_sep_append {c : Char} {a : GoStr} (h : c ∉ a) (b : GoStr) :
    splitOnChar c (a ++ c :: b) = a :: splitOnChar c b := by
  induction a with
  | nil => simp [splitOnChar]
  | cons x xs ih =>
    rw [List.mem_cons, not_or] at h
    simp only [List.cons_append, splitOnChar,
      if_neg (fun hh : x = c => h.1 hh.symm)]
    simp only [List.append_eq]
    rw [ih h.2]

lemma splitFirstEq_not_mem {a : GoStr} (h : '=' ∉ a) :
    splitFirstEq a = (a, none) := by
  induction a with
  | nil => rfl
  | cons x xs ih =>
    rw [List.mem_cons, not_or] at h
    simp only [splitFirstEq, if_neg (fun hh : x = '=' => h.1 hh.symm), ih h.2]

lemma splitFirstEq_sep_append {a : GoStr} (h : '=' ∉ a) (b : GoStr) :
    splitFirstEq (a ++ '=' :: b) = (a, some b) := by
  induction a with
  | nil => simp [splitFirstEq]
  | cons x xs ih =>
    rw [List.mem_cons, not_or] at h
    simp only [List.cons_append, splitFirstEq,
      if_neg (fun hh : x = '=' => h.1 hh.symm)]
    simp only [List.append_eq]
    rw [ih h.2]

lemma firstFailing_cons_empty {v : Validator} {rc : RegexCompiler}
    {value : GoValue} {rule : GoStr} {rest : List GoStr}
    (h : trimSpace rule = []) :
    v.firstFailing rc value (rule :: rest) = v.firstFailing rc value rest := by
  simp [Validator.firstFailing, cleanedRules, h]

lemma firstFailing_cons_nonempty {v : Validator} {rc : RegexCompiler}
    {value : GoValue} {rule : GoStr} {rest : List GoStr}
    (h : ¬ trimSpace rule = []) :
    v.firstFailing rc value (rule :: rest) =
      (if v.validateField rc value (parseRule (trimSpace rule)).1
            (parseRule (trimSpace rule)).2
       then v.firstFailing rc value rest
       else some (parseRule (trimSpace rule))) := by
  simp only [Validator.firstFailing, cleanedRules, List.map_cons, List.filter_cons]
  rw [if_pos (by simpa [List.isEmpty_iff] using h)]
  rw [List.map_cons, List.find?_cons]
  by_cases hv : v.validateField rc value (parseRule (trimSpace rule)).1
      (parseRule (trimSpace rule)).2
  · simp [hv]
  · simp [hv]

/-- The first-error-then-break loop of `validateStruct` produces exactly the
error of the first failing effective rule, or no error at all. -/
lemma ruleLoop_eq (v : Validator) (rc : RegexCompiler) (name label : GoStr)
    (value : GoValue) (rules : List GoStr) :
    v.ruleLoop rc name label value rules =
      match v.firstFailing rc value rules with
      | none => []
      | some tp => [{ Field := name, Tag := tp.1, Value := value,
                      Message := v.formatMessage tp.1 label tp.2 }] := by
  induction rules with
  | nil => rfl
  | cons rule rest ih =>
    by_cases h : trimSpace rule = []
    · rw [firstFailing_cons_empty h, ← ih]
      simp only [Validator.ruleLoop]
      rw [if_pos h]
    · rw [firstFailing_cons_nonempty h]
      simp only [Validator.ruleLoop]
      rw [if_neg h]
      by_cases hv : v.validateField rc value (parseRule (trimSpace rule)).1
          (parseRule (trimSpace rule)).2
      · rw [if_pos hv, if_pos hv, ih]
      · rw [if_neg hv, if_neg hv]

/-- A non-embedded field entry of the walker is exactly the tag-processing
step. -/
lemma validateFieldEntry_plain (v : Validator) (rc : RegexCompiler)
    (name : GoStr) (tags : List (GoStr × GoStr)) (value : GoValue) :
    v.validateFieldEntry rc (.mk name tags true false value) =
      v.processTagged rc name tags value := by
  cases value <;> rfl

/-!
## Claims
-/

/-- Claim C1. For every plain annotated field the walker appends at most one
`ValidationError`, whose rule name is the first effective rule (in annotation
order, after trimming and empty-token skipping) whose predicate fails; and
the walker's output over a field list is the concatenation of the per-field
contributions, so traversal always moves on to the next field. -/
theorem claim_C1_first_failure_only (v : Validator) (rc : RegexCompiler)
    (name : GoStr) (tags : List (GoStr × GoStr)) (value : GoValue) :
    (v.validateFieldEntry rc (.mk name tags true false value)).length ≤ 1 ∧
    (v.validateFieldEntry rc (.mk name tags true false value)).map
        ValidationError.Tag =
      (if tagGet tags v.tagName = [] ∨ tagGet tags v.tagName = gs "-" then []
       else ((v.firstFailing rc value
              (splitOnChar ',' (tagGet tags v.tagName))).map Prod.fst).toList) ∧
    (∀ fs : List GoField,
      v.validateStructFields rc fs = fs.flatMap (v.validateFieldEntry rc)) := by
  refine ⟨?_, ?_, ?_⟩
  · rw [validateFieldEntry_plain]
    simp only [Validator.processTagged]
    by_cases hfp : tagGet tags v.tagName = [] ∨ tagGet tags v.tagName = gs "-"
    · rw [if_pos hfp]; simp
    · rw [if_neg hfp, ruleLoop_eq]
      cases v.firstFailing rc value (splitOnChar ',' (tagGet tags v.tagName)) <;>
        simp
  · rw [validateFieldEntry_plain]
    simp only [Validator.processTagged]
    by_cases hfp : tagGet tags v.tagName = [] ∨ tagGet tags v.tagName = gs "-"
    · rw [if_pos hfp, if_pos hfp]; simp
    · rw [if_neg hfp, if_neg hfp, ruleLoop_eq]
      cases v.firstFailing rc value (splitOnChar ',' (tagGet tags v.tagName)) <;>
        simp
  · intro fs
    induction fs with
    | nil => rfl
    | cons f rest ih => simp [Validator.validateStructFields, ih]

/-- Claim C6. `range=a-b` evaluates exactly as `min=a AND max=b` (for bound
texts `a`, `b` free of `-`, which is what the dash-split presupposes), and
`range=1-bad` fails on every integer field because its upper bound does not
parse. -/
theorem claim_C6_range_is_min_and_max :
    (∀ (field : GoValue) (a b : GoStr), '-' ∉ a → '-' ∉ b →
      validateRange field (a ++ '-' :: b) =
        (validateMin field a && validateMax field b)) ∧
    (∀ n : Int, validateRange (.int n) (gs "1-bad") = false) := by
  constructor
  · intro field a b ha hb
    simp only [validateRange, splitOnChar_sep_append ha, splitOnChar_not_mem hb]
  · intro n
    have hsplit : splitOnChar '-' (gs "1-bad") = [gs "1", gs "bad"] := by decide
    have hmax : validateMax (.int n) (gs "bad") = false := by
      simp [validateMax, show goAtoi (gs "bad") = none by decide]
    simp [validateRange, hsplit, hmax]

/-- Claim C1, witness. On the field `Username` with annotation
`required,min=3` and value `"ab"`, the walker reports exactly one error,
with rule `min` (the first failing rule: `required` passes, `min=3` fails). -/
theorem claim_C1_first_failure_only_witness :
    (New.validateFieldEntry (fun _ => none)
      (.mk (gs "Username") [(gs "validate", gs "required,min=3")] true false
        (.str (gs "ab")))).length ≤ 1 ∧
    (New.validateFieldEntry (fun _ => none)
      (.mk (gs "Username") [(gs "validate", gs "required,min=3")] true false
        (.str (gs "ab")))).map ValidationError.Tag = [gs "min"] :=
  ⟨(claim_C1_first_failure_only New (fun _ => none) (gs "Username")
      [(gs "validate", gs "required,min=3")] (.str (gs "ab"))).1,
   ((claim_C1_first_failure_only New (fun _ => none) (gs "Username")
      [(gs "validate", gs "required,min=3")] (.str (gs "ab"))).2.1).trans
     (by decide)⟩

/-- Claim C6, witness. `range=3-5` agrees with `min=3 && max=5` on the integer
`4`, and `range=1-bad` fails on the integer `7`. -/
theorem claim_C6_range_is_min_and_max_witness :
    validateRange (.int 4) (gs "3" ++ '-' :: gs "5") =
      (validateMin (.int 4) (gs "3") && validateMax (.int 4) (gs "5")) ∧
    validateRange (.int 7) (gs "1-bad") = false :=
  ⟨claim_C6_range_is_min_and_max.1 (.int 4) (gs "3") (gs "5")
      (by decide) (by decide),
   claim_C6_range_is_min_and_max.2 7⟩

/-- Claim C9. `ValidateVar` reports success (a nil error) for every input value
and every rule string: the single-value validation operation is not
functionally implemented. -/
theorem claim_C9_validateVar_always_nil (value : GoValue) (rules : GoStr) :
    ValidateVar value rules = none := rfl

/-- Claim C9, witness. A concrete instance: a value with a non-trivial rule
string still validates successfully. -/
theorem claim_C9_validateVar_always_nil_witness :
    ValidateVar (.str (gs "not an email")) (gs "required,email") = none :=
  claim_C9_validateVar_always_nil (.str (gs "not an email"))
    (gs "required,email")

/-- Claim C2, counterexample. The claim "an unparsable numeric parameter makes
the rule fail" is false for `gt`: on an integer field holding `5`, the rule
`gt=abc` evaluates to pass, although `abc` does not parse as a number. -/
theorem claim_C2_counterexample :
    New.validateField (fun _ => none) (.int 5) (gs "gt") (gs "abc") = true ∧
    goAtoi (gs "abc") = none := by
  exact ⟨by decide, by decide⟩

/-- Claim C2 (amended). For `min`, `max` and `len` an unparsable numeric
parameter makes the rule fail, and a `range` bound that fails to parse makes
`range` fail; but for `eq`/`ne`/`gt`/`gte`/`lt`/`lte` the parse error is
discarded (`p, _ := strconv.Parse…`) and the parameter is treated as `0`, so
those rules compare the field against zero and may pass. -/
theorem claim_C2_unparsable_param :
    (∀ (field : GoValue) (param : GoStr), goAtoi param = none →
      validateMin field param = false ∧ validateMax field param = false ∧
      validateLen field param = false) ∧
    (∀ (field : GoValue) (a b param : GoStr), splitOnChar '-' param = [a, b] →
      goAtoi a = none ∨ goAtoi b = none → validateRange field param = false) ∧
    (∀ (n : Int) (param : GoStr), parseDecSyntax param = none →
      validateEq (.int n) param = (n == 0) ∧
      validateNe (.int n) param = !(n == 0) ∧
      validateGt (.int n) param = decide (0 < n) ∧
      validateGte (.int n) param = decide (0 ≤ n) ∧
      validateLt (.int n) param = decide (n < 0) ∧
      validateLte (.int n) param = decide (n ≤ 0)) := by
  refine ⟨?_, ?_, ?_⟩
  · intro field param h
    exact ⟨by simp [validateMin, h], by simp [validateMax, h], by simp [validateLen, h]⟩
  · intro field a b param hsplit hor
    rcases hor with h | h
    · simp [validateRange, hsplit, validateMin, h]
    · simp [validateRange, hsplit, validateMax, h]
  · intro n param h
    have h0 : goParseInt64Lenient param = 0 := by simp [goParseInt64Lenient, h]
    refine ⟨?_, ?_, ?_, ?_, ?_, ?_⟩ <;>
      simp [validateEq, validateNe, validateGt, validateGte, validateLt,
        validateLte, h0]

/-- Claim C2 (amended), witness. Instances: `min=abc` fails on the string
`"hello"`, `range=1-bad` fails on the integer `5`, while `gt=abc` passes on
the integer `5` and `eq=abc` passes on the integer `0`. -/
theorem claim_C2_unparsable_param_witness :
    validateMin (.str (gs "hello")) (gs "abc") = false ∧
    validateRange (.int 5) (gs "1-bad") = false ∧
    validateGt (.int 5) (gs "abc") = decide ((0 : Int) < 5) ∧
    validateEq (.int 0) (gs "abc") = ((0 : Int) == 0) := by
  refine ⟨(claim_C2_unparsable_param.1 _ _ (by decide)).1,
    claim_C2_unparsable_param.2.1 (.int 5) (gs "1") (gs "bad") _ (by decide)
      (Or.inr (by decide)),
    (claim_C2_unparsable_param.2.2 5 _ (by decide)).2.2.1,
    (claim_C2_unparsable_param.2.2 0 _ (by decide)).1⟩

/-- Claim C4. The `required` rule fails on zero values — a blank (empty or
all-whitespace) string, the numeric `0`, a nil pointer or interface, an empty
slice/map/array — but always passes on boolean fields, whatever their value. -/
theorem claim_C4_required_zero_values :
    (∀ s : GoStr, s.all goIsSpace = true → validateRequired (.str s) = false) ∧
    validateRequired (.int 0) = false ∧
    validateRequired (.uint 0) = false ∧
    validateRequired (.ptr none) = false ∧
    validateRequired (.iface none) = false ∧
    validateRequired (.slice 0) = false ∧
    validateRequired (.goMap 0) = false ∧
    validateRequired (.array 0) = false ∧
    (∀ b : Bool, validateRequired (.boolean b) = true) := by
  refine ⟨?_, rfl, rfl, rfl, rfl, rfl, rfl, rfl, fun _ => rfl⟩
  intro s h
  simp [validateRequired, trimSpace_of_all_space h]

/-- Claim C4, witness. The all-whitespace string `" \t "` fails `required`;
both boolean values pass it. -/
theorem claim_C4_required_zero_values_witness :
    validateRequired (.str (gs " \t ")) = false ∧
    validateRequired (.boolean false) = true ∧
    validateRequired (.boolean true) = true :=
  ⟨claim_C4_required_zero_values.1 _ (by decide),
   claim_C4_required_zero_values.2.2.2.2.2.2.2.2 false,
   claim_C4_required_zero_values.2.2.2.2.2.2.2.2 true⟩

/-- Claim C5. On string fields `min`/`max` bound the rune count inclusively,
never the byte length: the results depend only on `s.length` (the rune
count); with `min=3`/`max=5` a 3-rune and a 5-rune string pass, a 2-rune and
a 6-rune string fail, and any 4-rune string of byte length above 5 passes
both bounds. -/
theorem claim_C5_min_max_rune_count :
    (∀ (s : GoStr) (p : GoStr) (m : Int), goAtoi p = some m →
      validateMin (.str s) p = decide (m ≤ (s.length : Int)) ∧
      validateMax (.str s) p = decide ((s.length : Int) ≤ m)) ∧
    (∀ s : GoStr, s.length = 3 → validateMin (.str s) (gs "3") = true) ∧
    (∀ s : GoStr, s.length = 5 → validateMax (.str s) (gs "5") = true) ∧
    (∀ s : GoStr, s.length = 2 → validateMin (.str s) (gs "3") = false) ∧
    (∀ s : GoStr, s.length = 6 → validateMax (.str s) (gs "5") = false) ∧
    (∀ s : GoStr, s.length = 4 → 5 < goByteLen s →
      validateMin (.str s) (gs "3") = true ∧ validateMax (.str s) (gs "5") = true) := by
  have h3 : goAtoi (gs "3") = some 3 := by decide
  have h5 : goAtoi (gs "5") = some 5 := by decide
  refine ⟨?_, ?_, ?_, ?_, ?_, ?_⟩
  · intro s p m h
    exact ⟨by simp [validateMin, h], by simp [validateMax, h]⟩
  · intro s h; simp [validateMin, h3, h]
  · intro s h; simp [validateMax, h5, h]
  · intro s h; simp [validateMin, h3, h]
  · intro s h; simp [validateMax, h5, h]
  · intro s h _; exact ⟨by simp [validateMin, h3, h], by simp [validateMax, h5, h]⟩

/-- Claim C5, witness. The 4-rune string `"日本語字"` has byte length 12 > 5 yet
passes both `min=3` and `max=5`; `"ab"` fails `min=3`. -/
theorem claim_C5_min_max_rune_count_witness :
    validateMin (.str (gs "日本語字")) (gs "3") = true ∧
    validateMax (.str (gs "日本語字")) (gs "5") = true ∧
    validateMin (.str (gs "ab")) (gs "3") = false :=
  ⟨(claim_C5_min_max_rune_count.2.2.2.2.2 _ (by decide) (by decide)).1,
   (claim_C5_min_max_rune_count.2.2.2.2.2 _ (by decide) (by decide)).2,
   claim_C5_min_max_rune_count.2.2.2.1 _ (by decide)⟩

lemma builtinEval_unknown (rc : RegexCompiler) (field : GoValue)
    (param : GoStr) {tag : GoStr} (h : tag ∉ builtinNames) :
    builtinEval rc field tag param = true := by
  simp only [builtinNames, List.mem_cons, List.not_mem_nil, or_false,
    not_or] at h
  obtain ⟨h1, h2, h3, h4, h5, h6, h7, h8, h9, h10, h11, h12, h13, h14, h15,
    h16, h17, h18, h19, h20, h21, h22, h23, h24, h25, h26, h27, h28, h29⟩ := h
  simp [builtinEval, h1, h2, h3, h4, h5, h6, h7, h8, h9, h10, h11, h12, h13,
    h14, h15, h16, h17, h18, h19, h20, h21, h22, h23, h24, h25, h26, h27,
    h28, h29]

/-- Claim C3. Dispatch resolution: a custom-registered validator of the rule
name wins (even when a built-in of the same spelling exists); otherwise the
built-in switch is used; and a name that is neither custom nor built-in
evaluates to `true`, so it can never produce an error. -/
theorem claim_C3_dispatch_resolution (v : Validator) (rc : RegexCompiler)
    (field : GoValue) (tag param : GoStr) :
    (∀ fn, lookupAssoc v.validators tag = some fn →
      v.validateField rc field tag param = fn field param) ∧
    (lookupAssoc v.validators tag = none →
      v.validateField rc field tag param = builtinEval rc field tag param) ∧
    (lookupAssoc v.validators tag = none → tag ∉ builtinNames →
      v.validateField rc field tag param = true) := by
  refine ⟨?_, ?_, ?_⟩
  · intro fn h; simp [Validator.validateField, h]
  · intro h; simp [Validator.validateField, h]
  · intro h h2
    simp [Validator.validateField, h, builtinEval_unknown rc field param h2]

/-- Claim C3, witness. Registering a custom (always-failing) `email` validator
shadows the built-in: the valid address `a@b.co` now fails; and the unknown
rule name `nosuchrule` passes on the default validator. -/
theorem claim_C3_dispatch_resolution_witness :
    (New.RegisterValidator (gs "email") (fun _ _ => false)).validateField
      (fun _ => none) (.str (gs "a@b.co")) (gs "email") [] = false ∧
    New.validateField (fun _ => none) (.str (gs "x")) (gs "nosuchrule") [] =
      true := by
  constructor
  · exact (claim_C3_dispatch_resolution _ _ _ _ _).1 (fun _ _ => false) rfl
  · exact (claim_C3_dispatch_resolution _ _ _ _ _).2.2 rfl (by decide)

/-- Claim C7. Every string-format rule passes vacuously on the empty string,
and a field annotated `email,required` with value `""` reports `required`,
not `email`. -/
theorem claim_C7_empty_string_passes_format (rc : RegexCompiler) :
    validateEmail (.str []) = true ∧ validatePhone (.str []) = true ∧
    validateURL (.str []) = true ∧ validateIP (.str []) = true ∧
    validateAlpha (.str []) = true ∧ validateAlphaNum (.str []) = true ∧
    validateNumeric (.str []) = true ∧ validateNumber (.str []) = true ∧
    validateUsername (.str []) = true ∧ validateIDCard (.str []) = true ∧
    (New.validateFieldEntry rc
      (.mk (gs "Email") [(gs "validate", gs "email,required")] true false
        (.str []))).map ValidationError.Tag = [gs "required"] := by
  exact ⟨rfl, rfl, rfl, rfl, rfl, rfl, rfl, rfl, rfl, rfl, rfl⟩

/-- Claim C7, witness. A concrete instantiation of the regex compiler
(rejecting every pattern — never consulted on these inputs). -/
theorem claim_C7_empty_string_passes_format_witness :
    validateEmail (.str []) = true ∧
    (New.validateFieldEntry (fun _ => none)
      (.mk (gs "Email") [(gs "validate", gs "email,required")] true false
        (.str []))).map ValidationError.Tag = [gs "required"] :=
  ⟨(claim_C7_empty_string_passes_format (fun _ => none)).1,
   (claim_C7_empty_string_passes_format
      (fun _ => none)).2.2.2.2.2.2.2.2.2.2⟩

/-- Claim C8. The rule grammar: the annotation is split on commas and each
token on its first `=` only (so the parameter may itself contain `=`); a
token with no `=` has an empty parameter; annotations `""` and `"-"` yield no
rules at all; and the loop sees exactly the trimmed, non-empty tokens (two
rule lists with equal cleaned tokens behave identically). -/
theorem claim_C8_rule_grammar :
    (∀ a b : GoStr, '=' ∉ a → parseRule (a ++ '=' :: b) = (a, b)) ∧
    (∀ a : GoStr, '=' ∉ a → parseRule a = (a, [])) ∧
    (∀ (v : Validator) (rc : RegexCompiler) (name : GoStr)
        (tags : List (GoStr × GoStr)) (value : GoValue),
      tagGet tags v.tagName = [] ∨ tagGet tags v.tagName = gs "-" →
      v.validateFieldEntry rc (.mk name tags true false value) = []) ∧
    (∀ (v : Validator) (rc : RegexCompiler) (name : GoStr)
        (tags : List (GoStr × GoStr)) (value : GoValue),
      ¬(tagGet tags v.tagName = [] ∨ tagGet tags v.tagName = gs "-") →
      v.validateFieldEntry rc (.mk name tags true false value) =
        v.ruleLoop rc name (v.resolveLabel name tags) value
          (splitOnChar ',' (tagGet tags v.tagName))) ∧
    (∀ (v : Validator) (rc : RegexCompiler) (name label : GoStr)
        (value : GoValue) (rules rules' : List GoStr),
      cleanedRules rules = cleanedRules rules' →
      v.ruleLoop rc name label value rules =
        v.ruleLoop rc name label value rules') := by
  refine ⟨?_, ?_, ?_, ?_, ?_⟩
  · intro a b h; simp [parseRule, splitFirstEq_sep_append h]
  · intro a h; simp [parseRule, splitFirstEq_not_mem h]
  · intro v rc name tags value h
    rw [validateFieldEntry_plain]
    simp only [Validator.processTagged]
    rw [if_pos h]
  · intro v rc name tags value h
    rw [validateFieldEntry_plain]
    simp only [Validator.processTagged]
    rw [if_neg h]
  · intro v rc name label value rules rules' h
    rw [ruleLoop_eq, ruleLoop_eq]
    have : v.firstFailing rc value rules = v.firstFailing rc value rules' := by
      simp only [Validator.firstFailing, h]
    rw [this]

/-- Claim C8, witness. `min= a=b ` (sic) splits into tag `min`, parameter
`a=b`; a field whose annotation is `-` contributes nothing even when a
custom rule named `-` that always fails is registered; and the token list
`["", " required "]` behaves like `["required"]`. -/
theorem claim_C8_rule_grammar_witness :
    parseRule (gs "min" ++ '=' :: gs "a=b") = (gs "min", gs "a=b") ∧
    (New.RegisterValidator (gs "-") (fun _ _ => false)).validateFieldEntry
      (fun _ => none)
      (.mk (gs "F") [(gs "validate", gs "-")] true false (.str [])) = [] ∧
    New.ruleLoop (fun _ => none) (gs "F") (gs "F") (.str [])
        [[], gs " required "] =
      New.ruleLoop (fun _ => none) (gs "F") (gs "F") (.str []) [gs "required"] :=
  ⟨claim_C8_rule_grammar.1 (gs "min") (gs "a=b") (by decide),
   claim_C8_rule_grammar.2.2.1 _ _ _ _ _ (Or.inr (by decide)),
   claim_C8_rule_grammar.2.2.2.2 _ _ _ _ _ _ _ (by decide)⟩

/-- Claim C10. On a field whose kind is not string, every string-only rule
(email, phone, url, ip, alpha, alphanum, numeric, number, username, idcard,
lowercase, uppercase, contains, startswith, endswith, regex) evaluates to
`false`, so annotating a non-string field with such a rule produces a
validation error instead of passing vacuously — e.g. an `email` annotation
yields exactly one error with rule `email`. -/
theorem claim_C10_string_rules_fail_nonstring (rc : RegexCompiler)
    (field : GoValue) (param : GoStr) (h : field.isString = false) :
    validateEmail field = false ∧ validatePhone field = false ∧
    validateURL field = false ∧ validateIP field = false ∧
    validateAlpha field = false ∧ validateAlphaNum field = false ∧
    validateNumeric field = false ∧ validateNumber field = false ∧
    validateUsername field = false ∧ validateIDCard field = false ∧
    validateLowercase field = false ∧ validateUppercase field = false ∧
    validateContains field param = false ∧
    validateStartsWith field param = false ∧
    validateEndsWith field param = false ∧
    validateRegex rc field param = false ∧
    (New.validateFieldEntry rc
      (.mk (gs "F") [(gs "validate", gs "email")] true false field)).map
        ValidationError.Tag = [gs "email"] := by
  cases field <;> simp [GoValue.isString] at h <;>
    exact ⟨rfl, rfl, rfl, rfl, rfl, rfl, rfl, rfl, rfl, rfl, rfl, rfl, rfl,
      rfl, rfl, rfl, rfl⟩

/-- Claim C10, witness. The integer field `5` fails `email` (and the walker
reports one `email` error for it). -/
theorem claim_C10_string_rules_fail_nonstring_witness :
    validateEmail (.int 5) = false ∧
    (New.validateFieldEntry (fun _ => none)
      (.mk (gs "F") [(gs "validate", gs "email")] true false (.int 5))).map
        ValidationError.Tag = [gs "email"] :=
  ⟨(claim_C10_string_rules_fail_nonstring (fun _ => none) (.int 5) []
      (by decide)).1,
   (claim_C10_string_rules_fail_nonstring (fun _ => none) (.int 5) []
      (by decide)).2.2.2.2.2.2.2.2.2.2.2.2.2.2.2.2⟩

end GoBoot
